import Mathlib

/-!
Verification development for the prompt-enhancer repository.

The Python source under `src/` is shallowly embedded: pure code becomes Lean
functions; each inference (LLM) call and each persistence call is represented
by an oracle value describing that call's outcome (`Except Unit α`, where
`.error ()` stands for a raised exception), so that the control flow around
those calls — the part the claims are about — is embedded exactly.  All
oracles are already specialised to the run's category: the category value is
threaded through the Python calls but never inspected by the control flow
embedded here.
-/

namespace PromptEnhancer

/-! Data model, from `src/core/models.py`.  Pydantic string-literal unions are
embedded as `String` fields (the code compares them with string equality);
`overall_score` is an `Int` (Python int), with the pydantic `ge=1, le=10`
bound enforced at construction time in `toCritiqueResult` below. -/

/-- The closed 7-tag category enumeration (`PromptCategory` in models.py). -/
inductive PromptCategory
  | code
  | creative
  | image_generation
  | analysis
  | business
  | education
  | general
deriving DecidableEq, Repr, Inhabited

/-- List of all seven category tags, in the enumeration order of models.py. -/
def allCategories : List PromptCategory :=
  [.code, .creative, .image_generation, .analysis, .business, .education, .general]

/-- Weakness record (models.py). -/
structure Weakness where
  type : String
  description : String
  suggestion : String
  severity : String := "medium"
deriving DecidableEq, Repr, Inhabited

/-- MissingParameter record (models.py). -/
structure MissingParameter where
  name : String
  question : String
  importance : String := "recommended"
deriving DecidableEq, Repr, Inhabited

/-- ProTip record (models.py); the `example` field is optional. -/
structure ProTip where
  technique : String
  title : String
  suggestion : String
  «example» : Option String := none
  impact : String := "medium"
deriving DecidableEq, Repr, Inhabited

/-- CritiqueResult record (models.py). -/
structure CritiqueResult where
  weaknesses : List Weakness := []
  missing_params : List MissingParameter := []
  pro_tips : List ProTip := []
  overall_score : Int := 5
  is_ready : Bool := false
deriving DecidableEq, Repr, Inhabited

/-- RefinementResult record (models.py). -/
structure RefinementResult where
  original_prompt : String
  improved_prompt : String
  category : PromptCategory
  critique : CritiqueResult
  iterations_used : Nat := 1
  explanation : String := ""
  improvement_delta : Int := 0
deriving DecidableEq, Repr, Inhabited

/-! JSON values, as produced by `json.loads` on an inference response.
Numbers are modelled as integers (the schemas the code reads only use
integer-valued numbers; nothing below depends on fractional numbers). -/

/-- A parsed JSON value. -/
inductive Json
  | null
  | bool (b : Bool)
  | num (n : Int)
  | str (s : String)
  | arr (elems : List Json)
  | obj (fields : List (String × Json))

/-- Python `dict` lookup on a parsed JSON object: first binding of the key. -/
def jLookup (fields : List (String × Json)) (key : String) : Option Json :=
  (fields.find? (fun f => f.1 == key)).map (fun f => f.2)

/-- Python `result.get(key, default)` on a parsed JSON object. -/
def jGet (fields : List (String × Json)) (key : String) (dflt : Json) : Json :=
  (jLookup fields key).getD dflt

/-- A required pydantic `str` field: present and a JSON string, else the
construction raises (ValidationError). -/
def reqString (fields : List (String × Json)) (key : String) : Except Unit String :=
  match jLookup fields key with
  | some (.str s) => .ok s
  | _ => .error ()

/-- An optional pydantic `str` field with a default. -/
def optString (fields : List (String × Json)) (key : String) (dflt : String) :
    Except Unit String :=
  match jLookup fields key with
  | none => .ok dflt
  | some (.str s) => .ok s
  | some _ => .error ()

/-- An optional pydantic `Optional[str]` field defaulting to `None`. -/
def optStrOrNull (fields : List (String × Json)) (key : String) :
    Except Unit (Option String) :=
  match jLookup fields key with
  | none => .ok none
  | some .null => .ok none
  | some (.str s) => .ok (some s)
  | some _ => .error ()

/-- Embeds `Weakness(**w)` in shadow_critic.py line 124: pydantic construction
from a JSON entry; a non-dict entry or a missing/non-string required field
raises. -/
def mkWeakness : Json → Except Unit Weakness
  | .obj fs =>
    match reqString fs "type", reqString fs "description", reqString fs "suggestion",
        optString fs "severity" "medium" with
    | .ok t, .ok d, .ok s, .ok sev =>
      .ok { type := t, description := d, suggestion := s, severity := sev }
    | _, _, _, _ => .error ()
  | _ => .error ()

/-- Embeds `MissingParameter(**p)` in shadow_critic.py line 125. -/
def mkMissingParameter : Json → Except Unit MissingParameter
  | .obj fs =>
    match reqString fs "name", reqString fs "question",
        optString fs "importance" "recommended" with
    | .ok n, .ok q, .ok imp => .ok { name := n, question := q, importance := imp }
    | _, _, _ => .error ()
  | _ => .error ()

/-- Embeds `ProTip(**t)` in shadow_critic.py line 126. -/
def mkProTip : Json → Except Unit ProTip
  | .obj fs =>
    match reqString fs "technique", reqString fs "title", reqString fs "suggestion",
        optStrOrNull fs "example", optString fs "impact" "medium" with
    | .ok tech, .ok ti, .ok s, .ok ex, .ok imp =>
      .ok { technique := tech, title := ti, suggestion := s, «example» := ex, impact := imp }
    | _, _, _, _, _ => .error ()
  | _ => .error ()

/-- Iterating a JSON value as a Python list: anything but a JSON array makes
the list comprehension raise. -/
def jList : Json → Except Unit (List Json)
  | .arr xs => .ok xs
  | _ => .error ()

/-- The `overall_score` value: pydantic `int` with `ge=1, le=10`; any other
shape or an out-of-range value raises. -/
def jScore : Json → Except Unit Int
  | .num n => if 1 ≤ n ∧ n ≤ 10 then .ok n else .error ()
  | _ => .error ()

/-- The `is_ready` value: pydantic `bool`. -/
def jBool : Json → Except Unit Bool
  | .bool b => .ok b
  | _ => .error ()

/-- Embeds shadow_critic.py lines 121–134: read the parsed JSON as a dict
(`result.get` on a non-dict raises AttributeError), convert the three lists
entry-by-entry, and construct the `CritiqueResult` with its field defaults and
score bounds.  Any failure here is an ordinary exception, caught only by the
generic `except Exception` handler of `critique`. -/
def toCritiqueResult (j : Json) : Except Unit CritiqueResult :=
  match j with
  | .obj fs =>
    match (jList (jGet fs "weaknesses" (.arr []))).bind (fun l => l.mapM mkWeakness),
        (jList (jGet fs "missing_params" (.arr []))).bind (fun l => l.mapM mkMissingParameter),
        (jList (jGet fs "pro_tips" (.arr []))).bind (fun l => l.mapM mkProTip),
        jScore (jGet fs "overall_score" (.num 5)),
        jBool (jGet fs "is_ready" (.bool false)) with
    | .ok ws, .ok ps, .ok ts, .ok score, .ok ready =>
      .ok { weaknesses := ws, missing_params := ps, pro_tips := ts,
            overall_score := score, is_ready := ready }
    | _, _, _, _, _ => .error ()
  | _ => .error ()

/-- Outcome of the critique inference call (`generate_content_async` plus
`json.loads`): the call itself raised, or it returned text that `json.loads`
rejects, or it returned text that parsed to the JSON value `j`. -/
inductive CritiqueResponse
  | failure
  | unparsable
  | json (j : Json)

/-- The fallback result built in the `except json.JSONDecodeError` branch of
`ShadowCritic.critique` (shadow_critic.py lines 136–148). -/
def degradedCritique : CritiqueResult :=
  { weaknesses := [{ type := "unknown",
                     description := "לא הצלחתי לנתח את הפרומפט",
                     suggestion := "נסה שוב",
                     severity := "medium" }],
    overall_score := 5,
    is_ready := false }

/-- Embeds `ShadowCritic.critique` (shadow_critic.py lines 112–151): a failure
of the inference call re-raises (`except Exception: raise`); a response that
`json.loads` cannot parse returns the degraded fallback result; a parsed JSON
response goes through `toCritiqueResult`, whose own exceptions also reach the
generic `except Exception: raise` handler. -/
def ShadowCritic.critique (resp : CritiqueResponse) : Except Unit CritiqueResult :=
  match resp with
  | .failure => .error ()
  | .unparsable => .ok degradedCritique
  | .json j =>
    match toCritiqueResult j with
    | .ok r => .ok r
    | .error e => .error e

/-! Category router, from `src/agents/category_router.py`. -/

/-- ASCII lowercasing of one character, embedding the effect of Python
`str.lower()` on the characters that occur here (ASCII letters; the Hebrew
code points in the keyword table are caseless). -/
def lowerChar (c : Char) : Char :=
  if 65 ≤ c.toNat ∧ c.toNat ≤ 90 then Char.ofNat (c.toNat + 32) else c

/-- Embeds `prompt.lower()`. -/
def pyLower (s : String) : String := ⟨s.data.map lowerChar⟩

/-- Whether the first list is a prefix of the second (character lists). -/
def beginsWith : List Char → List Char → Bool
  | [], _ => true
  | _ :: _, [] => false
  | a :: as, b :: bs => a == b && beginsWith as bs

/-- Whether the first list occurs contiguously inside the second. -/
def containsChars (needle : List Char) : List Char → Bool
  | [] => beginsWith needle []
  | b :: bs => beginsWith needle (b :: bs) || containsChars needle bs

/-- Embeds the Python substring test `needle in haystack`. -/
def strContains (haystack needle : String) : Bool :=
  containsChars needle.data haystack.data

/-- The fixed per-category keyword table `self.keyword_hints`
(category_router.py lines 27–55), in its Python dict insertion order. -/
def keyword_hints : List (PromptCategory × List String) :=
  [ (.code,
     ["קוד", "סקריפט", "פונקציה", "תכנות", "python", "javascript",
      "api", "באג", "debug", "function", "class", "מחלקה"]),
    (.image_generation,
     ["midjourney", "dall-e", "dalle", "stable diffusion", "תמונה",
      "אילוסטרציה", "ציור", "רנדר", "render", "3d", "פוטוריאליסטי",
      "אנימה", "קריקטורה", "דיוקן", "נוף", "לוגו", "איור",
      "ויזואלי", "גרפי", "עיצוב תמונה", "image", "photo", "art style",
      "aspect ratio", "cinematic", "realistic", "hyper realistic"]),
    (.creative,
     ["כתוב", "סיפור", "שיר", "פוסט", "קופי", "שיווק", "יצירתי",
      "תוכן", "בלוג", "מאמר", "פרסום", "סלוגן"]),
    (.analysis,
     ["נתח", "ניתוח", "השווה", "סקור", "דו\"ח", "מחקר",
      "data", "נתונים", "סטטיסטיקה", "מגמות"]),
    (.business,
     ["עסקי", "אסטרטגיה", "תקציב", "roi", "לקוח", "מכירות",
      "שיווק", "תכנית עסקית", "pitch", "משקיע"]),
    (.education,
     ["הסבר", "למד", "תרגיל", "שיעור", "קורס", "מורה",
      "תלמיד", "חינוך", "tutorial", "guide"]) ]

/-- Embeds `score = sum(1 for kw in keywords if kw in prompt_lower)`
(category_router.py line 124). -/
def keywordCount (promptLower : String) (keywords : List String) : Nat :=
  (keywords.filter (fun kw => strContains promptLower kw)).length

/-- The per-category match counts for a prompt, in table order (before the
`if score > 0` filtering of line 125). -/
def categoryScores (prompt : String) : List (PromptCategory × Nat) :=
  keyword_hints.map (fun ck => (ck.1, keywordCount (pyLower prompt) ck.2))

/-- Embeds `max(scores, key=scores.get)` over the insertion-ordered dict: the
first entry attaining the maximal count (a later entry replaces the running
best only when strictly greater). -/
def pickBest : List (PromptCategory × Nat) → Option (PromptCategory × Nat)
  | [] => none
  | x :: xs =>
    match pickBest xs with
    | none => some x
    | some b => some (if x.2 < b.2 then b else x)

/-- Embeds `CategoryRouter._detect_with_keywords` (category_router.py lines
118–135): count keyword matches per category, keep the positive counts, return
`(GENERAL, 0.3)` when none, else the best category with confidence
`min(0.9, 0.3 + 0.15 * matched_keyword_count)` (floats embedded as rationals). -/
def CategoryRouter.detect_with_keywords (prompt : String) : PromptCategory × ℚ :=
  let scores := (categoryScores prompt).filter (fun ck => 0 < ck.2)
  match pickBest scores with
  | none => (.general, 3/10)
  | some best => (best.1, min (9/10) (3/10 + (best.2 : ℚ) * (15/100)))

/-- Outcome of `_detect_with_ai` (category_router.py lines 78–116): every
exception inside it — the inference call failing, `json.loads` failing, a
category string outside the enum (`PromptCategory(...)` raises ValueError), a
missing key — propagates to the caller as `failure`; otherwise it returns a
valid enum member together with whatever number `float(result["confidence"])`
produced (unconstrained). -/
inductive AiDetectOutcome
  | failure
  | ok (category : PromptCategory) (confidence : ℚ)

/-- Embeds `CategoryRouter.detect_category` (category_router.py lines 57–76):
use the AI result when it arrived with confidence ≥ 0.7, otherwise — lower
confidence or any exception — fall back to the keyword heuristic. -/
def CategoryRouter.detect_category (prompt : String) (ai : AiDetectOutcome) :
    PromptCategory × ℚ :=
  match ai with
  | .ok c conf => if 7/10 ≤ conf then (c, conf) else CategoryRouter.detect_with_keywords prompt
  | .failure => CategoryRouter.detect_with_keywords prompt

/-! Parameter validator, from `src/agents/parameter_validator.py`. -/

/-- Embeds the error handling of `ParameterValidator.validate` (lines
212–242): the parsed missing-parameter list on success, and the silent
empty-list fallback when the inference call or its parsing raises. -/
def validateResult (outcome : Except Unit (List MissingParameter)) :
    List MissingParameter :=
  match outcome with
  | .ok l => l
  | .error _ => []

/-- Stable insertion of an element in front of the first element of
greater-or-equal key. -/
def insertStable (key : MissingParameter → Nat) (a : MissingParameter) :
    List MissingParameter → List MissingParameter
  | [] => [a]
  | b :: bs => if key a ≤ key b then a :: b :: bs else b :: insertStable key a bs

/-- Stable sort by key, embedding Python's stable `sorted(xs, key=...)`:
an element is placed before every later element whose key is not smaller. -/
def sortStable (key : MissingParameter → Nat) (l : List MissingParameter) :
    List MissingParameter :=
  l.foldr (insertStable key) []

/-- The sort key `lambda p: (0 if p.importance == "required" else 1)`
(parameter_validator.py line 256). -/
def importanceKey (p : MissingParameter) : Nat :=
  if p.importance == "required" then 0 else 1

/-- The question formatting of parameter_validator.py lines 261–262. -/
def formatQuestion (p : MissingParameter) : String :=
  (if p.importance == "required" then "❗ " else "💭 ") ++ p.question

/-- Embeds `ParameterValidator.get_questions_for_missing` (lines 244–264):
stable-sort by importance (required first), truncate to `max_questions`,
format each question with its importance mark. -/
def ParameterValidator.get_questions_for_missing
    (missing_params : List MissingParameter) (max_questions : Nat) : List String :=
  let sorted_params := sortStable importanceKey missing_params
  (sorted_params.take max_questions).map formatQuestion

/-! Refiner, from `src/agents/refiner.py`. -/

/-- The loop guard `critique.overall_score >= target_score or critique.is_ready`
(refiner.py line 151). -/
def converged (target_score : Int) (c : CritiqueResult) : Bool :=
  decide (target_score ≤ c.overall_score) || c.is_ready

/-- Instrumentation record of the calls a `refine_iterative` run makes, in
chronological order: the text passed to each critique call, the
(text, critique) pair passed to each rewrite call, and each rewrite call's
returned text.  It adds observations only; it does not alter the control
flow embedded from the source. -/
structure LoopTrace where
  critiqued : List String
  rewriteInputs : List (String × CritiqueResult)
  rewriteOutputs : List String
deriving DecidableEq, Repr, Inhabited

/-- Embeds `PromptRefiner.refine_iterative` (refiner.py lines 116–162).
`critic` gives the outcome of `critic.critique(text, category)` and `rw` the
outcome of `self.refine(original_prompt=text, category=category,
critique=c)` for the run's fixed category; both raise by returning
`.error ()`, which propagates (neither call is guarded in the loop).  The
recursion parameter is the remaining iteration count of
`for iteration in range(max_iterations)`; the returned tuple is
(improved text, iterations used, critique history), plus the trace. -/
def PromptRefiner.refine_iterative
    (critic : String → Except Unit CritiqueResult)
    (rw : String → CritiqueResult → Except Unit String)
    (target_score : Int) :
    Nat → String → Except Unit (String × Nat × List CritiqueResult × LoopTrace)
  | 0, current => .ok (current, 0, [], ⟨[], [], []⟩)
  | n + 1, current =>
    match critic current with
    | .error e => .error e
    | .ok c =>
      if converged target_score c then
        .ok (current, 1, [c], ⟨[current], [], []⟩)
      else
        match rw current c with
        | .error e => .error e
        | .ok next =>
          match PromptRefiner.refine_iterative critic rw target_score n next with
          | .error e => .error e
          | .ok (t, k, hist, tr) =>
            .ok (t, k + 1, c :: hist,
                 ⟨current :: tr.critiqued, (current, c) :: tr.rewriteInputs,
                  next :: tr.rewriteOutputs⟩)

/-! Orchestrator, from `src/core/orchestrator.py`. -/

/-- Per-run outcomes of every external call the orchestrator's pipeline can
make: the AI classification, the critique call per text, the parameter
validation, the rewrite call per (text, critique, user answers), the
explanation call, and the history persistence. -/
structure OrchestratorEnv where
  ai_classify : AiDetectOutcome
  critic : String → Except Unit CritiqueResult
  validate : Except Unit (List MissingParameter)
  rw : String → CritiqueResult → Option (List (String × String)) → Except Unit String
  explain : Except Unit String
  save : Except Unit Unit

/-- The fields of the dict returned by `analyze_prompt` that carry data (the
two presentation-only fields, `category_description` and
`formatted_critique`, are pure formatting of `category` and `critique` and
are omitted). -/
structure AnalyzeResult where
  original_prompt : String
  category : PromptCategory
  confidence : ℚ
  critique : CritiqueResult
  questions : List String
deriving DecidableEq, Repr

/-- Embeds `PromptEnhancerOrchestrator.analyze_prompt` (orchestrator.py lines
40–77): classify, critique (whose failure propagates), gap-detect (whose
failure degrades to `[]` inside `validate`), then the assignment
`critique.missing_params = missing_params` of line 64 and the question
derivation of line 67. -/
def Orchestrator.analyze_prompt (env : OrchestratorEnv) (prompt : String) :
    Except Unit AnalyzeResult :=
  let cc := CategoryRouter.detect_category prompt env.ai_classify
  match env.critic prompt with
  | .error e => .error e
  | .ok critique0 =>
    let missing_params := validateResult env.validate
    let critique1 := { critique0 with missing_params := missing_params }
    .ok { original_prompt := prompt, category := cc.1, confidence := cc.2,
          critique := critique1,
          questions := ParameterValidator.get_questions_for_missing missing_params 3 }

/-- The fixed fallback sentence of `generate_explanation` (refiner.py line 257). -/
def fallback_explanation : String :=
  "הפרומפט שופר על ידי הוספת פרטים חסרים והבהרת המטרה."

/-- Embeds the error handling of `PromptRefiner.generate_explanation`
(refiner.py lines 246–257): any failure returns the fallback sentence. -/
def Refiner.generate_explanation (outcome : Except Unit String) : String :=
  match outcome with
  | .ok s => s
  | .error _ => fallback_explanation

/-- Embeds `PromptEnhancerOrchestrator._save_to_db` (orchestrator.py lines
178–207): the whole body is wrapped in try/except, so a persistence failure is
logged and swallowed and the call always returns normally. -/
def Orchestrator.save_to_db (outcome : Except Unit Unit) : Except Unit Unit :=
  match outcome with
  | .ok _ => .ok ()
  | .error _ => .ok ()

/-- Embeds the improvement step of `refine_prompt` (orchestrator.py lines
110–130): either the convergence loop (when `use_iterations` and
`max_iterations > 1`; `target_score=8`, `final_critique = critiques[-1] if
critiques else initial_critique`) or a single rewrite followed by a
re-critique.  `max_iterations = none` embeds the `None` default, replaced by
`config.MAX_ITERATIONS` (default 3). -/
def Orchestrator.stepResult (env : OrchestratorEnv) (prompt : String)
    (user_answers : Option (List (String × String)))
    (use_iterations : Bool) (max_iterations : Option Nat)
    (initial_critique : CritiqueResult) : Except Unit (String × Nat × CritiqueResult) :=
  if use_iterations = true ∧ 1 < max_iterations.getD 3 then
    match PromptRefiner.refine_iterative env.critic (fun s c => env.rw s c none)
        8 (max_iterations.getD 3) prompt with
    | .error e => .error e
    | .ok (improved, iters, critiques, _) =>
      .ok (improved, iters, critiques.getLast?.getD initial_critique)
  else
    match env.rw prompt initial_critique user_answers with
    | .error e => .error e
    | .ok improved =>
      match env.critic improved with
      | .error e => .error e
      | .ok final => .ok (improved, 1, final)

/-- Embeds `PromptEnhancerOrchestrator.refine_prompt` (orchestrator.py lines
79–162): analyze (whose critique failure propagates), the improvement step,
the explanation (whose failure degrades to the fallback sentence), the
best-effort persistence, and the assembled `RefinementResult` with
`improvement_delta = score_after - score_before`. -/
def Orchestrator.refine_prompt (env : OrchestratorEnv) (prompt : String)
    (user_answers : Option (List (String × String)))
    (use_iterations : Bool) (max_iterations : Option Nat) :
    Except Unit RefinementResult :=
  match Orchestrator.analyze_prompt env prompt with
  | .error e => .error e
  | .ok analysis =>
    match Orchestrator.stepResult env prompt user_answers use_iterations max_iterations
        analysis.critique with
    | .error e => .error e
    | .ok (improved, iters, final) =>
      match Orchestrator.save_to_db env.save with
      | .error e => .error e
      | .ok _ =>
        .ok { original_prompt := prompt, improved_prompt := improved,
              category := analysis.category, critique := final,
              iterations_used := iters,
              explanation := Refiner.generate_explanation env.explain,
              improvement_delta := final.overall_score - analysis.critique.overall_score }

/-! Shared structural lemmas about the convergence loop, proved by induction
on the remaining iteration count.  They are used by several claim theorems
below. -/

/-- Bookkeeping facts of a successful loop run: history and critique-trace
lengths equal the iteration count, rewrite inputs and outputs pair up, the
iteration count is bounded by the budget and positive when the budget is,
and a run of zero iterations returns its input unchanged. -/
theorem ri_lengths (critic : String → Except Unit CritiqueResult)
    (rw : String → CritiqueResult → Except Unit String) (target : Int) :
    ∀ (n : Nat) (cur t : String) (k : Nat) (hist : List CritiqueResult) (tr : LoopTrace),
    PromptRefiner.refine_iterative critic rw target n cur = .ok (t, k, hist, tr) →
    hist.length = k ∧ tr.critiqued.length = k ∧
      tr.rewriteInputs.length = tr.rewriteOutputs.length ∧ k ≤ n ∧ (1 ≤ n → 1 ≤ k) ∧
      (k = 0 → hist = [] ∧ tr = ⟨[], [], []⟩ ∧ t = cur) ∧
      tr.rewriteInputs.length ≤ k := by
  intro n
  induction n with
  | zero =>
    intro cur t k hist tr h
    simp [PromptRefiner.refine_iterative] at h
    obtain ⟨h1, h2, h3, h4⟩ := h
    subst h1 h2 h3 h4
    simp
  | succ n ih =>
    intro cur t k hist tr h
    rw [PromptRefiner.refine_iterative] at h
    cases hc : critic cur with
    | error e => rw [hc] at h; simp at h
    | ok c =>
      rw [hc] at h
      by_cases hcv : converged target c = true
      · simp only [hcv, if_true] at h
        simp at h
        obtain ⟨h1, h2, h3, h4⟩ := h
        subst h1 h2 h3 h4
        simp
      · simp only [Bool.not_eq_true] at hcv
        simp only [hcv, Bool.false_eq_true, if_false] at h
        cases hrw : rw cur c with
        | error e => simp only [hrw] at h; exact Except.noConfusion h
        | ok next =>
          simp only [hrw] at h
          cases hrec : PromptRefiner.refine_iterative critic rw target n next with
          | error e => simp only [hrec] at h; exact Except.noConfusion h
          | ok r =>
            obtain ⟨t2, k2, hist2, tr2⟩ := r
            simp only [hrec] at h
            simp at h
            obtain ⟨h1, h2, h3, h4⟩ := h
            subst h1 h2 h3 h4
            obtain ⟨a1, a2, a3, a4, a5, a6, a7⟩ := ih next t2 k2 hist2 tr2 hrec
            refine ⟨by simp [a1], by simp [a2], by simp [a3], by omega, by omega, by omega,
              by simp; omega⟩

/-- Which texts the loop rewrites: the first rewrite call receives the text
the loop started from, every later rewrite call receives the previous rewrite
call's output (not the original text), and the critique passed to the j-th
rewrite call is the j-th critique of the history (the latest at that point). -/
theorem ri_anchor (critic : String → Except Unit CritiqueResult)
    (rw : String → CritiqueResult → Except Unit String) (target : Int) :
    ∀ (n : Nat) (cur t : String) (k : Nat) (hist : List CritiqueResult) (tr : LoopTrace),
    PromptRefiner.refine_iterative critic rw target n cur = .ok (t, k, hist, tr) →
    tr.rewriteInputs.map Prod.snd = hist.take tr.rewriteInputs.length ∧
      (∀ d, 0 < tr.rewriteInputs.length → (tr.rewriteInputs.getD 0 d).1 = cur) ∧
      (∀ j d1 d2, j + 1 < tr.rewriteInputs.length →
        (tr.rewriteInputs.getD (j + 1) d1).1 = tr.rewriteOutputs.getD j d2) := by
  intro n
  induction n with
  | zero =>
    intro cur t k hist tr h
    simp [PromptRefiner.refine_iterative] at h
    obtain ⟨h1, h2, h3, h4⟩ := h
    subst h1 h2 h3 h4
    simp
  | succ n ih =>
    intro cur t k hist tr h
    rw [PromptRefiner.refine_iterative] at h
    cases hc : critic cur with
    | error e => rw [hc] at h; simp at h
    | ok c =>
      rw [hc] at h
      by_cases hcv : converged target c = true
      · simp only [hcv, if_true] at h
        simp at h
        obtain ⟨h1, h2, h3, h4⟩ := h
        subst h1 h2 h3 h4
        simp
      · simp only [Bool.not_eq_true] at hcv
        simp only [hcv, Bool.false_eq_true, if_false] at h
        cases hrw : rw cur c with
        | error e => simp only [hrw] at h; exact Except.noConfusion h
        | ok next =>
          simp only [hrw] at h
          cases hrec : PromptRefiner.refine_iterative critic rw target n next with
          | error e => simp only [hrec] at h; exact Except.noConfusion h
          | ok r =>
            obtain ⟨t2, k2, hist2, tr2⟩ := r
            simp only [hrec] at h
            simp at h
            obtain ⟨h1, h2, h3, h4⟩ := h
            subst h1 h2 h3 h4
            obtain ⟨b1, b2, b3⟩ := ih next t2 k2 hist2 tr2 hrec
            refine ⟨?_, ?_, ?_⟩
            · simp [b1]
            · intro d _
              simp
            · intro j d1 d2 hj
              cases j with
              | zero =>
                simp only [List.getD_cons_succ, List.getD_cons_zero]
                exact b2 d1 (by simpa using hj)
              | succ m =>
                simp only [List.getD_cons_succ]
                exact b3 m d1 d2 (by simpa using hj)
/-- If the critique of (0-based) iteration i scores at or above the target,
the loop returns right there: the iteration count is i + 1, exactly i rewrite
calls were made (none at or after iteration i), and the returned text is the
text that iteration i critiqued. -/
theorem ri_return (critic : String → Except Unit CritiqueResult)
    (rw : String → CritiqueResult → Except Unit String) (target : Int) :
    ∀ (n : Nat) (cur t : String) (k : Nat) (hist : List CritiqueResult) (tr : LoopTrace),
    PromptRefiner.refine_iterative critic rw target n cur = .ok (t, k, hist, tr) →
    ∀ (i : Nat) (d : CritiqueResult), i < hist.length →
      target ≤ (hist.getD i d).overall_score →
      k = i + 1 ∧ tr.rewriteInputs.length = i ∧ t = tr.critiqued.getD i "" := by
  intro n
  induction n with
  | zero =>
    intro cur t k hist tr h
    simp [PromptRefiner.refine_iterative] at h
    obtain ⟨h1, h2, h3, h4⟩ := h
    subst h1 h2 h3 h4
    intro i d hi
    simp at hi
  | succ n ih =>
    intro cur t k hist tr h
    rw [PromptRefiner.refine_iterative] at h
    cases hc : critic cur with
    | error e => rw [hc] at h; simp at h
    | ok c =>
      rw [hc] at h
      by_cases hcv : converged target c = true
      · simp only [hcv, if_true] at h
        simp at h
        obtain ⟨h1, h2, h3, h4⟩ := h
        subst h1 h2 h3 h4
        intro i d hi hs
        simp at hi
        subst hi
        simp
      · simp only [Bool.not_eq_true] at hcv
        simp only [hcv, Bool.false_eq_true, if_false] at h
        cases hrw : rw cur c with
        | error e => simp only [hrw] at h; exact Except.noConfusion h
        | ok next =>
          simp only [hrw] at h
          cases hrec : PromptRefiner.refine_iterative critic rw target n next with
          | error e => simp only [hrec] at h; exact Except.noConfusion h
          | ok r =>
            obtain ⟨t2, k2, hist2, tr2⟩ := r
            simp only [hrec] at h
            simp at h
            obtain ⟨h1, h2, h3, h4⟩ := h
            subst h1 h2 h3 h4
            intro i d hi hs
            cases i with
            | zero =>
              exfalso
              simp only [List.getD_cons_zero] at hs
              have : converged target c = true := by
                simp [converged]
                exact Or.inl hs
              rw [hcv] at this
              exact Bool.noConfusion this
            | succ m =>
              simp only [List.getD_cons_succ] at hs
              have hm : m < hist2.length := by simpa using hi
              obtain ⟨r1, r2, r3⟩ := ih next t2 k2 hist2 tr2 hrec m d hm hs
              refine ⟨by omega, by simp [r2], by simp [r3]⟩

/-- A run whose last recorded critique did not converge is an exhausted run:
every critique (the last included) was followed by a rewrite, the returned
text is the last rewrite call's output, and the last critique's subject was
the final rewrite call's input — the returned text itself was never passed to
a critique call. -/
theorem ri_exhaust (critic : String → Except Unit CritiqueResult)
    (rw : String → CritiqueResult → Except Unit String) (target : Int) :
    ∀ (n : Nat) (cur t : String) (k : Nat) (hist : List CritiqueResult) (tr : LoopTrace)
      (c : CritiqueResult),
    PromptRefiner.refine_iterative critic rw target n cur = .ok (t, k, hist, tr) →
    hist.getLast? = some c → converged target c = false →
    tr.rewriteInputs.length = k ∧ tr.rewriteOutputs.getLast? = some t ∧
      tr.critiqued.getLast? = tr.rewriteInputs.getLast?.map Prod.fst ∧
      hist.length = k := by
  intro n
  induction n with
  | zero =>
    intro cur t k hist tr c h
    simp [PromptRefiner.refine_iterative] at h
    obtain ⟨h1, h2, h3, h4⟩ := h
    subst h1 h2 h3 h4
    intro hlast
    simp at hlast
  | succ n ih =>
    intro cur t k hist tr c h
    rw [PromptRefiner.refine_iterative] at h
    cases hc : critic cur with
    | error e => rw [hc] at h; simp at h
    | ok c0 =>
      rw [hc] at h
      by_cases hcv : converged target c0 = true
      · simp only [hcv, if_true] at h
        simp at h
        obtain ⟨h1, h2, h3, h4⟩ := h
        subst h1 h2 h3 h4
        intro hlast hfail
        simp at hlast
        subst hlast
        rw [hcv] at hfail
        exact Bool.noConfusion hfail
      · simp only [Bool.not_eq_true] at hcv
        simp only [hcv, Bool.false_eq_true, if_false] at h
        cases hrw : rw cur c0 with
        | error e => simp only [hrw] at h; exact Except.noConfusion h
        | ok next =>
          simp only [hrw] at h
          cases hrec : PromptRefiner.refine_iterative critic rw target n next with
          | error e => simp only [hrec] at h; exact Except.noConfusion h
          | ok r =>
            obtain ⟨t2, k2, hist2, tr2⟩ := r
            simp only [hrec] at h
            simp at h
            obtain ⟨h1, h2, h3, h4⟩ := h
            subst h1 h2 h3 h4
            intro hlast hfail
            obtain ⟨a1, a2, a3, a4, a5, a6, a7⟩ := ri_lengths critic rw target n next t2 k2 hist2 tr2 hrec
            cases hist2 with
            | nil =>
              have hk2 : k2 = 0 := by simpa using a1.symm
              obtain ⟨-, htr2, ht2⟩ := a6 hk2
              subst ht2
              rw [htr2]
              simp at hlast
              subst hlast
              simp [hk2]
            | cons b bs =>
              have hlast2 : (b :: bs).getLast? = some c := by
                rw [← hlast]
                exact List.getLast?_cons_cons.symm
              obtain ⟨e1, e2, e3, e4⟩ := ih next t2 k2 (b :: bs) tr2 c hrec hlast2 hfail
              have hk2 : 1 ≤ k2 := by
                simp at a1
                omega
              have hri : tr2.rewriteInputs ≠ [] := by
                apply List.ne_nil_of_length_pos
                rw [e1]
                omega
              have hro : tr2.rewriteOutputs ≠ [] := by
                apply List.ne_nil_of_length_pos
                rw [← a3, e1]
                omega
              have hcr : tr2.critiqued ≠ [] := by
                apply List.ne_nil_of_length_pos
                rw [a2]
                omega
              refine ⟨by simp [e1], ?_, ?_, by simp [e4]⟩
              · have key : (next :: tr2.rewriteOutputs).getLast? = some t2 := by
                  cases htro : tr2.rewriteOutputs with
                  | nil => exact absurd htro hro
                  | cons x xs =>
                    rw [htro] at e2
                    rw [List.getLast?_cons_cons]
                    exact e2
                simpa using key
              · have key : (cur :: tr2.critiqued).getLast?
                    = Option.map Prod.fst (((cur, c0) :: tr2.rewriteInputs).getLast?) := by
                  cases htcr : tr2.critiqued with
                  | nil => exact absurd htcr hcr
                  | cons x xs =>
                    cases htri : tr2.rewriteInputs with
                    | nil => exact absurd htri hri
                    | cons y ys =>
                      rw [htcr, htri] at e3
                      rw [List.getLast?_cons_cons, List.getLast?_cons_cons]
                      exact e3
                simpa using key
/-! Concrete oracle outcomes used by witnesses and counterexamples. -/

/-- A critique scoring 9 with no findings. -/
def sampleHighCritique : CritiqueResult := { overall_score := 9 }

/-- A critique scoring 4 with no findings. -/
def sampleLowCritique : CritiqueResult := { overall_score := 4 }

/-- Critic oracle: every text gets the score-9 critique. -/
def criticHigh : String → Except Unit CritiqueResult := fun _ => .ok sampleHighCritique

/-- Critic oracle: every text gets the score-4 critique. -/
def criticLow : String → Except Unit CritiqueResult := fun _ => .ok sampleLowCritique

/-- Rewrite oracle: appends a marker to the text it is given. -/
def rwAppend : String → CritiqueResult → Except Unit String := fun s _ => .ok (s ++ "!")

/-- The trace of `refine_iterative criticLow rwAppend 8 2 "t"`: two failed
critiques, two rewrite calls. -/
def twoIterTrace : LoopTrace :=
  ⟨["t", "t!"], [("t", sampleLowCritique), ("t!", sampleLowCritique)], ["t!", "t!!"]⟩

/-- Claim C1 (counterexample).  The claim says every rewrite after the first
is anchored to the loop's original text.  In the run
`refine_iterative criticLow rwAppend 8 2 "t"` the second rewrite call receives
the text "t!" — the first rewrite's output — and not the original "t"
(refiner.py line 156 passes `original_prompt=current_prompt`). -/
theorem c1_counterexample :
    PromptRefiner.refine_iterative criticLow rwAppend 8 2 "t"
      = .ok ("t!!", 2, [sampleLowCritique, sampleLowCritique], twoIterTrace) ∧
    (twoIterTrace.rewriteInputs.getD 1 ("", default)).1 = "t!" ∧
    "t!" ≠ "t" := by
  refine ⟨rfl, rfl, by decide⟩

/-- Claim C1 (amended): in the iterative convergence loop, the first rewrite
call receives the loop's input text, and every rewrite call after the first
receives the previous rewrite call's output — the loop is a chain of
rewrites-of-rewrites — while the critique passed to each rewrite call is the
latest critique (the corresponding entry of the history). -/
theorem c1_rewrite_chained (critic : String → Except Unit CritiqueResult)
    (rw : String → CritiqueResult → Except Unit String) (target : Int)
    (n : Nat) (cur t : String) (k : Nat) (hist : List CritiqueResult) (tr : LoopTrace)
    (h : PromptRefiner.refine_iterative critic rw target n cur = .ok (t, k, hist, tr)) :
    (∀ d, 0 < tr.rewriteInputs.length → (tr.rewriteInputs.getD 0 d).1 = cur) ∧
    (∀ j d1 d2, j + 1 < tr.rewriteInputs.length →
      (tr.rewriteInputs.getD (j + 1) d1).1 = tr.rewriteOutputs.getD j d2) ∧
    tr.rewriteInputs.map Prod.snd = hist.take tr.rewriteInputs.length := by
  obtain ⟨b1, b2, b3⟩ := ri_anchor critic rw target n cur t k hist tr h
  exact ⟨b2, b3, b1⟩

/-- Witness for the amended claim C1, at the concrete two-iteration run. -/
theorem c1_witness :
    (twoIterTrace.rewriteInputs.getD 0 ("", default)).1 = "t" ∧
    (twoIterTrace.rewriteInputs.getD 1 ("", default)).1 = twoIterTrace.rewriteOutputs.getD 0 "" ∧
    twoIterTrace.rewriteInputs.map Prod.snd
      = [sampleLowCritique, sampleLowCritique].take twoIterTrace.rewriteInputs.length := by
  obtain ⟨w1, w2, w3⟩ := c1_rewrite_chained criticLow rwAppend 8 2 "t" "t!!" 2
    [sampleLowCritique, sampleLowCritique] twoIterTrace rfl
  exact ⟨w1 ("", default) (by decide), w2 0 ("", default) "" (by decide), w3⟩

/-- Claim C3: if the critique of (0-based) iteration i of a loop run scores
at or above the target, the loop returns immediately: iterations used is
i + 1, exactly i rewrite calls were made — none at or after the passing
critique, and none at all when the first critique passes — and the returned
text is the very text that critique scored. -/
theorem c3_converged_returns_immediately
    (critic : String → Except Unit CritiqueResult)
    (rw : String → CritiqueResult → Except Unit String) (target : Int)
    (n : Nat) (cur t : String) (k : Nat) (hist : List CritiqueResult) (tr : LoopTrace)
    (i : Nat) (d : CritiqueResult)
    (h : PromptRefiner.refine_iterative critic rw target n cur = .ok (t, k, hist, tr))
    (hi : i < hist.length)
    (hs : target ≤ (hist.getD i d).overall_score) :
    k = i + 1 ∧ tr.rewriteInputs.length = i ∧ t = tr.critiqued.getD i "" :=
  ri_return critic rw target n cur t k hist tr h i d hi hs

/-- Witness for claim C3, the spec's Scenario C: target 8, budget 1, first
critique scores 9 — the loop returns after exactly one iteration with no
rewrite call, handing back the text it critiqued. -/
theorem c3_witness :
    1 = 0 + 1 ∧
    (⟨["t"], [], []⟩ : LoopTrace).rewriteInputs.length = 0 ∧
    "t" = (⟨["t"], [], []⟩ : LoopTrace).critiqued.getD 0 "" :=
  c3_converged_returns_immediately criticHigh rwAppend 8 1 "t" "t" 1
    [sampleHighCritique] ⟨["t"], [], []⟩ 0 default rfl (by decide) (by decide)

/-- Claim C5 (counterexample).  The claim quantifies over every
`max_iterations`; with `max_iterations = 0` the loop body never runs and the
code returns `iterations_used = 0`, which does not lie in the interval
[1, max_iterations]. -/
theorem c5_counterexample :
    PromptRefiner.refine_iterative criticLow rwAppend 8 0 "t"
      = .ok ("t", 0, [], ⟨[], [], []⟩) ∧
    ¬ (1 ≤ (0 : Nat)) := ⟨rfl, by decide⟩

/-- Claim C5 (amended): for every `max_iterations ≥ 1`, a returning run of the
convergence loop performs at most `max_iterations` critiques and at most
`max_iterations` rewrites (the embedding is structurally recursive, so
termination is by construction), and the returned `iterations_used` lies in
[1, max_iterations]. -/
theorem c5_loop_bounded (critic : String → Except Unit CritiqueResult)
    (rw : String → CritiqueResult → Except Unit String) (target : Int)
    (n : Nat) (cur t : String) (k : Nat) (hist : List CritiqueResult) (tr : LoopTrace)
    (hn : 1 ≤ n)
    (h : PromptRefiner.refine_iterative critic rw target n cur = .ok (t, k, hist, tr)) :
    1 ≤ k ∧ k ≤ n ∧ hist.length ≤ n ∧ tr.critiqued.length ≤ n ∧
      tr.rewriteInputs.length ≤ n := by
  obtain ⟨a1, a2, a3, a4, a5, a6, a7⟩ := ri_lengths critic rw target n cur t k hist tr h
  exact ⟨a5 hn, a4, by omega, by omega, by omega⟩

/-- Witness for the amended claim C5, at the concrete two-iteration run. -/
theorem c5_witness :
    1 ≤ 2 ∧ 2 ≤ 2 ∧ [sampleLowCritique, sampleLowCritique].length ≤ 2 ∧
      twoIterTrace.critiqued.length ≤ 2 ∧ twoIterTrace.rewriteInputs.length ≤ 2 :=
  c5_loop_bounded criticLow rwAppend 8 2 "t" "t!!" 2
    [sampleLowCritique, sampleLowCritique] twoIterTrace (by decide) rfl
/-- The try/except wrapper of `_save_to_db` makes persistence total: every
outcome is swallowed. -/
theorem save_to_db_ok (o : Except Unit Unit) : Orchestrator.save_to_db o = .ok () := by
  cases o with
  | ok u => rfl
  | error u => rfl

/-- Claim C8: a failing history-persistence write is swallowed — `refine`
returns exactly the result it would return had persistence succeeded, for
every environment and every argument, and the persistence wrapper itself
never raises. -/
theorem c8_persistence_failure_swallowed (env : OrchestratorEnv) (prompt : String)
    (ua : Option (List (String × String))) (ui : Bool) (mi : Option Nat)
    (o : Except Unit Unit) :
    Orchestrator.refine_prompt { env with save := o } prompt ua ui mi
      = Orchestrator.refine_prompt { env with save := .ok () } prompt ua ui mi
    ∧ Orchestrator.save_to_db o = .ok () := by
  constructor
  · cases o with
    | ok u => cases u; rfl
    | error u => cases u; rfl
  · exact save_to_db_ok o

/-- Claim C10: when the loop exhausts its budget without converging (its last
recorded critique is below target and not ready), the returned text is the
final rewrite call's output; a rewrite followed every critique, so the
returned text was never itself critiqued; the last critique's subject is the
text from before the final rewrite; and `refine` takes exactly that last
critique as the final critique of its result (`critiques[-1]`), so the
`score_after` entering `improvement_delta` scores the pre-final-rewrite text,
not the returned improved text. -/
theorem c10_exhausted_text_never_critiqued
    (env : OrchestratorEnv) (prompt : String) (ua : Option (List (String × String)))
    (m : Nat) (t : String) (k : Nat) (hist : List CritiqueResult) (tr : LoopTrace)
    (c : CritiqueResult) (res : RefinementResult)
    (hm : 1 < m)
    (hloop : PromptRefiner.refine_iterative env.critic (fun s c => env.rw s c none)
      8 m prompt = .ok (t, k, hist, tr))
    (hlast : hist.getLast? = some c)
    (hfail : converged 8 c = false)
    (hres : Orchestrator.refine_prompt env prompt ua true (some m) = .ok res) :
    tr.rewriteOutputs.getLast? = some t ∧
    tr.rewriteInputs.length = k ∧
    tr.critiqued.getLast? = tr.rewriteInputs.getLast?.map Prod.fst ∧
    res.improved_prompt = t ∧
    res.critique = c := by
  obtain ⟨e1, e2, e3, e4⟩ := ri_exhaust env.critic (fun s c => env.rw s c none)
    8 m prompt t k hist tr c hloop hlast hfail
  refine ⟨e2, e1, e3, ?_⟩
  rw [Orchestrator.refine_prompt] at hres
  cases han : Orchestrator.analyze_prompt env prompt with
  | error e => rw [han] at hres; exact Except.noConfusion hres
  | ok analysis =>
    simp only [han] at hres
    have hstep : Orchestrator.stepResult env prompt ua true (some m) analysis.critique
        = .ok (t, k, hist.getLast?.getD analysis.critique) := by
      rw [Orchestrator.stepResult, if_pos ⟨rfl, by simpa using hm⟩]
      simp only [Option.getD]
      rw [hloop]
    simp only [hstep] at hres
    simp only [save_to_db_ok] at hres
    rw [Except.ok.injEq] at hres
    subst hres
    exact ⟨rfl, by simp [hlast]⟩
/-- Environment for a concrete exhausted run: classification falls back,
every critique scores 4, rewrites append a marker, persistence succeeds. -/
def envExhaustSample : OrchestratorEnv :=
  { ai_classify := .failure,
    critic := criticLow,
    validate := .ok [],
    rw := fun s _ _ => .ok (s ++ "!"),
    explain := .ok "done",
    save := .ok () }

/-- The result `refine_prompt envExhaustSample "t" none true (some 2)` returns. -/
def resExhaustSample : RefinementResult :=
  { original_prompt := "t", improved_prompt := "t!!", category := .general,
    critique := sampleLowCritique, iterations_used := 2, explanation := "done",
    improvement_delta := 0 }

/-- Witness for claim C10, at a concrete exhausted two-iteration run. -/
theorem c10_witness :
    twoIterTrace.rewriteOutputs.getLast? = some "t!!" ∧
    twoIterTrace.rewriteInputs.length = 2 ∧
    twoIterTrace.critiqued.getLast? = twoIterTrace.rewriteInputs.getLast?.map Prod.fst ∧
    resExhaustSample.improved_prompt = "t!!" ∧
    resExhaustSample.critique = sampleLowCritique :=
  c10_exhausted_text_never_critiqued envExhaustSample "t" none 2 "t!!" 2
    [sampleLowCritique, sampleLowCritique] twoIterTrace sampleLowCritique resExhaustSample
    (by decide) rfl rfl rfl rfl

/-- Claim C2 (counterexample).  The claim says every inference response that
is not in the expected structured shape yields the degraded result.  The
response text "[]" parses as JSON (so it is a response, not a call failure)
but is not in the expected shape — and `critique` raises on it
(`result.get` on a Python list raises AttributeError, which falls into
`except Exception: raise`) instead of returning the degraded result. -/
theorem c2_counterexample :
    toCritiqueResult (.arr []) = .error () ∧
    ShadowCritic.critique (.json (.arr [])) = .error () := ⟨rfl, rfl⟩

/-- Claim C2 (amended): the asymmetry is between JSON-decoding failures and
everything else.  A response that `json.loads` rejects degrades to a
CritiqueResult with exactly one weakness of type "unknown", overall_score 5
and is_ready false, without raising; a failure of the inference call itself
raises; and a response that parses as JSON but fails shape validation also
raises, exactly like a call failure. -/
theorem c2_parse_failure_asymmetry :
    ShadowCritic.critique .unparsable = .ok degradedCritique ∧
    degradedCritique.weaknesses.map (fun w => w.type) = ["unknown"] ∧
    degradedCritique.overall_score = 5 ∧
    degradedCritique.is_ready = false ∧
    ShadowCritic.critique .failure = .error () ∧
    (∀ j : Json, toCritiqueResult j = .error () →
      ShadowCritic.critique (.json j) = .error ()) := by
  refine ⟨rfl, rfl, rfl, rfl, rfl, ?_⟩
  intro j h
  rw [ShadowCritic.critique, h]

/-- Witness for the amended claim C2, at a JSON string payload (valid JSON,
wrong shape). -/
theorem c2_witness : ShadowCritic.critique (.json (.str "oops")) = .error () :=
  c2_parse_failure_asymmetry.2.2.2.2.2 (.str "oops") rfl
/-- Claim C4 (amended): `analyze` does not merge — the assignment
`critique.missing_params = missing_params` replaces the critique's own
missing-parameter list with the gap detector's list, and the derived
questions come from the gap detector's list alone. -/
theorem c4_gaps_replace_critique_params (env : OrchestratorEnv) (prompt : String)
    (a : AnalyzeResult) (h : Orchestrator.analyze_prompt env prompt = .ok a) :
    a.critique.missing_params = validateResult env.validate ∧
    a.questions
      = ParameterValidator.get_questions_for_missing (validateResult env.validate) 3 := by
  rw [Orchestrator.analyze_prompt] at h
  cases hc : env.critic prompt with
  | error e => rw [hc] at h; exact Except.noConfusion h
  | ok critique0 =>
    simp only [hc] at h
    rw [Except.ok.injEq] at h
    subst h
    exact ⟨rfl, rfl⟩

/-- A missing parameter as the critique step itself would report it. -/
def critiqueParamSample : MissingParameter :=
  { name := "tone", question := "שאלה מהמבקר", importance := "required" }

/-- A missing parameter as the gap-detection step reports it. -/
def gapParamSample : MissingParameter :=
  { name := "goal", question := "שאלה מהגלאי", importance := "required" }

/-- Environment in which the critique reports `critiqueParamSample` and the
gap detector reports `gapParamSample`. -/
def envMergeSample : OrchestratorEnv :=
  { ai_classify := .failure,
    critic := fun _ => .ok { missing_params := [critiqueParamSample] },
    validate := .ok [gapParamSample],
    rw := fun _ _ _ => .error (),
    explain := .error (),
    save := .ok () }

/-- Claim C4 (counterexample).  The claim says the critique returned by
`analyze` contains both the critique step's and the gap detector's missing
parameters; in `envMergeSample` the critique step reports one parameter and
the gap detector another, and the returned critique carries only the gap
detector's — the critique step's parameter is gone. -/
theorem c4_counterexample :
    (Orchestrator.analyze_prompt envMergeSample "p").map (fun a => a.critique.missing_params)
      = .ok [gapParamSample] ∧
    critiqueParamSample ∉ [gapParamSample] := ⟨rfl, by decide⟩

/-- The value `analyze_prompt envMergeSample "p"` returns. -/
def analyzeMergeSample : AnalyzeResult :=
  { original_prompt := "p", category := .general, confidence := 3/10,
    critique := { missing_params := [gapParamSample] },
    questions := ParameterValidator.get_questions_for_missing [gapParamSample] 3 }

/-- Witness for the amended claim C4, at the concrete environment. -/
theorem c4_witness :
    analyzeMergeSample.critique.missing_params = validateResult envMergeSample.validate ∧
    analyzeMergeSample.questions
      = ParameterValidator.get_questions_for_missing (validateResult envMergeSample.validate) 3 :=
  c4_gaps_replace_critique_params envMergeSample "p" analyzeMergeSample rfl
/-- Claim C7 (code bug).  `detect_category`'s own docstring promises a
confidence level 0–1, and the claim says the returned confidence always lies
in [0,1] for an arbitrary returned payload; but the code returns the
AI-reported confidence unclamped whenever it is ≥ 0.7.  A payload carrying
`{"category": "code", "confidence": 2.0}` makes `classify` return confidence
2, outside [0,1].  (The category is still a valid tag and no exception
escapes — only the confidence bound fails.) -/
theorem c7_confidence_unclamped :
    CategoryRouter.detect_category "נתח נתונים" (.ok .code 2) = (.code, 2) ∧
    ¬ ((2 : ℚ) ≤ 1) := by
  constructor
  · rw [CategoryRouter.detect_category, if_pos (by norm_num)]
  · norm_num

/-! Stable-sort lemmas for the parameter validator. -/

/-- Inserting an element whose key is at most every key in the list puts it
in front. -/
theorem insertStable_front (key : MissingParameter → Nat) (a : MissingParameter) :
    ∀ (l : List MissingParameter), (∀ b ∈ l, key a ≤ key b) →
    insertStable key a l = a :: l := by
  intro l h
  cases l with
  | nil => rfl
  | cons b bs =>
    rw [insertStable, if_pos (h b (by simp))]

/-- Inserting an element whose key exceeds every key in the first block walks
past that block. -/
theorem insertStable_skip (key : MissingParameter → Nat) (a : MissingParameter) :
    ∀ (A B : List MissingParameter), (∀ b ∈ A, ¬ (key a ≤ key b)) →
    insertStable key a (A ++ B) = A ++ insertStable key a B := by
  intro A
  induction A with
  | nil => intro B _; rfl
  | cons x xs ih =>
    intro B h
    rw [List.cons_append, insertStable, if_neg (h x (by simp)), ih B (fun b hb => h b (by simp [hb]))]
    rfl

/-- The stable sort by importance is the required block followed by the
recommended block, each in original order. -/
theorem sortStable_two_tier (l : List MissingParameter) :
    sortStable importanceKey l
      = l.filter (fun p => p.importance == "required")
        ++ l.filter (fun p => !(p.importance == "required")) := by
  induction l with
  | nil => rfl
  | cons p ps ih =>
    show insertStable importanceKey p (sortStable importanceKey ps) = _
    rw [ih]
    by_cases hp : p.importance == "required"
    · rw [insertStable_front importanceKey p _ (fun b _ => by simp [importanceKey, hp])]
      simp [List.filter_cons, hp]
    · have hkey : importanceKey p = 1 := by simp [importanceKey, hp]
      rw [insertStable_skip importanceKey p _ _ ?hA]
      case hA =>
        intro b hb
        have hb2 := (List.mem_filter.mp hb).2
        have hbk : importanceKey b = 0 := by rw [importanceKey, if_pos hb2]
        rw [hkey, hbk]
        decide
      rw [insertStable_front importanceKey p _ ?hB]
      case hB =>
        intro b hb
        have hb2 := (List.mem_filter.mp hb).2
        simp at hb2
        have hbk : importanceKey b = 1 := by simp [importanceKey, hb2]
        rw [hkey, hbk]
      simp [List.filter_cons, hp]

/-- Claim C9: `get_questions_for_missing` returns at most `max_questions`
entries; the stable sort it applies is exactly the required-importance block
followed by the recommended block, each preserving the original relative
order (so every required entry precedes every recommended entry in the
truncated output as well); and the output is that two-tier list truncated to
`max_questions` and formatted. -/
theorem c9_rank_and_truncate (missing : List MissingParameter) (k : Nat) :
    sortStable importanceKey missing
      = missing.filter (fun p => p.importance == "required")
        ++ missing.filter (fun p => !(p.importance == "required")) ∧
    (ParameterValidator.get_questions_for_missing missing k).length ≤ k ∧
    ParameterValidator.get_questions_for_missing missing k
      = ((missing.filter (fun p => p.importance == "required")
          ++ missing.filter (fun p => !(p.importance == "required"))).take k).map
            formatQuestion := by
  refine ⟨sortStable_two_tier missing, ?_, ?_⟩
  · rw [ParameterValidator.get_questions_for_missing]
    simp [List.length_take]
  · rw [ParameterValidator.get_questions_for_missing, sortStable_two_tier]
/-! Lemmas about the keyword-fallback selection. -/

/-- Specification-side largest per-category match count for a prompt. -/
def maxCountOf (l : List (PromptCategory × Nat)) : Nat :=
  (l.map (fun x => x.2)).foldr max 0

/-- The spec's "matched_keyword_count" of the best-matching category. -/
def maxMatchCount (prompt : String) : Nat := maxCountOf (categoryScores prompt)

theorem mem_le_maxCountOf (l : List (PromptCategory × Nat)) (y : PromptCategory × Nat)
    (hy : y ∈ l) : y.2 ≤ maxCountOf l := by
  induction l with
  | nil => cases hy
  | cons a as ih =>
    simp only [maxCountOf, List.map_cons, List.foldr_cons]
    rcases List.mem_cons.mp hy with h | h
    · subst h; exact le_max_left _ _
    · exact (ih h).trans (le_max_right _ _)

theorem maxCountOf_le (l : List (PromptCategory × Nat)) (b : Nat)
    (h : ∀ y ∈ l, y.2 ≤ b) : maxCountOf l ≤ b := by
  induction l with
  | nil => simp [maxCountOf]
  | cons a as ih =>
    simp only [maxCountOf, List.map_cons, List.foldr_cons]
    apply max_le (h a (by simp))
    exact ih (fun y hy => h y (by simp [hy]))

theorem pickBest_eq_none (l : List (PromptCategory × Nat)) (h : pickBest l = none) :
    l = [] := by
  cases l with
  | nil => rfl
  | cons x xs =>
    exfalso
    cases h2 : pickBest xs with
    | none => rw [pickBest, h2] at h; exact Option.noConfusion h
    | some b => rw [pickBest, h2] at h; exact Option.noConfusion h

theorem pickBest_mem (l : List (PromptCategory × Nat)) (x : PromptCategory × Nat)
    (h : pickBest l = some x) : x ∈ l := by
  induction l generalizing x with
  | nil => exact Option.noConfusion h
  | cons a as ih =>
    cases h2 : pickBest as with
    | none =>
      rw [pickBest, h2] at h
      rw [Option.some.injEq] at h
      subst h
      simp
    | some b =>
      rw [pickBest, h2] at h
      rw [Option.some.injEq] at h
      subst h
      by_cases hlt : a.2 < b.2
      · simp only [if_pos hlt]
        exact List.mem_cons_of_mem a (ih b h2)
      · simp only [if_neg hlt]
        simp

theorem pickBest_isMax (l : List (PromptCategory × Nat)) (x : PromptCategory × Nat)
    (h : pickBest l = some x) : ∀ y ∈ l, y.2 ≤ x.2 := by
  induction l generalizing x with
  | nil => exact Option.noConfusion h
  | cons a as ih =>
    intro y hy
    cases h2 : pickBest as with
    | none =>
      rw [pickBest, h2] at h
      rw [Option.some.injEq] at h
      subst h
      have has : as = [] := pickBest_eq_none as h2
      subst has
      rcases List.mem_cons.mp hy with h | h
      · subst h; exact le_refl _
      · cases h
    | some b =>
      rw [pickBest, h2] at h
      rw [Option.some.injEq] at h
      subst h
      rcases List.mem_cons.mp hy with h | h
      · subst h
        by_cases hlt : y.2 < b.2
        · simp only [if_pos hlt]
          exact le_of_lt hlt
        · simp only [if_neg hlt]
          exact le_refl _
      · have hyb := ih b h2 y h
        by_cases hlt : a.2 < b.2
        · simp only [if_pos hlt]
          exact hyb
        · simp only [if_neg hlt]
          exact hyb.trans (Nat.le_of_not_lt hlt)

theorem pickBest_first (l : List (PromptCategory × Nat)) (x : PromptCategory × Nat)
    (h : pickBest l = some x) :
    l.find? (fun y => decide (x.2 ≤ y.2)) = some x := by
  induction l generalizing x with
  | nil => exact Option.noConfusion h
  | cons a as ih =>
    cases h2 : pickBest as with
    | none =>
      rw [pickBest, h2] at h
      rw [Option.some.injEq] at h
      subst h
      exact List.find?_cons_of_pos _ (by simp)
    | some b =>
      rw [pickBest, h2] at h
      rw [Option.some.injEq] at h
      subst h
      by_cases hlt : a.2 < b.2
      · simp only [if_pos hlt]
        rw [List.find?_cons_of_neg _ (by simp; omega)]
        exact ih b h2
      · simp only [if_neg hlt]
        exact List.find?_cons_of_pos _ (by simp)

theorem find?_filter_sub (p q : (PromptCategory × Nat) → Bool)
    (himp : ∀ a, p a = true → q a = true) :
    ∀ l : List (PromptCategory × Nat), (l.filter q).find? p = l.find? p := by
  intro l
  induction l with
  | nil => rfl
  | cons a as ih =>
    by_cases hq : q a = true
    · rw [List.filter_cons_of_pos hq]
      by_cases hp : p a = true
      · rw [List.find?_cons_of_pos _ hp, List.find?_cons_of_pos _ hp]
      · rw [List.find?_cons_of_neg _ (by simpa using hp),
          List.find?_cons_of_neg _ (by simpa using hp)]
        exact ih
    · have hp : ¬ p a = true := fun hpa => hq (himp a hpa)
      rw [List.filter_cons_of_neg (by simpa using hq), ih,
        List.find?_cons_of_neg _ (by simpa using hp)]

theorem find?_congr_pred (p q : (PromptCategory × Nat) → Bool) :
    ∀ l : List (PromptCategory × Nat), (∀ a ∈ l, p a = q a) → l.find? p = l.find? q := by
  intro l
  induction l with
  | nil => intro _; rfl
  | cons a as ih =>
    intro h
    by_cases hp : p a = true
    · have hq : q a = true := (h a (by simp)) ▸ hp
      rw [List.find?_cons_of_pos _ hp, List.find?_cons_of_pos _ hq]
    · have hq : ¬ q a = true := fun hqa => hp ((h a (by simp)).symm ▸ hqa)
      rw [List.find?_cons_of_neg _ (by simpa using hp),
        List.find?_cons_of_neg _ (by simpa using hq)]
      exact ih (fun b hb => h b (by simp [hb]))
/-- Claim C6: the keyword fallback is a pure function of the text and the
fixed table (the embedding is a function, so repeated calls on identical text
are identical by definition); when no keyword matches it returns
(GENERAL, 0.3); otherwise it returns confidence
min(0.9, 0.3 + 0.15 × matched_keyword_count) for the best-matching category,
and the selected category is the first one, in the table's fixed enumeration
order, whose match count attains the maximum — ties resolve to the earlier
category. -/
theorem c6_keyword_fallback (prompt : String) :
    (maxMatchCount prompt = 0 →
      CategoryRouter.detect_with_keywords prompt = (.general, 3/10)) ∧
    (∀ cat : PromptCategory,
      0 < maxMatchCount prompt →
      (categoryScores prompt).find? (fun y => y.2 == maxMatchCount prompt)
        = some (cat, maxMatchCount prompt) →
      CategoryRouter.detect_with_keywords prompt
        = (cat, min (9/10) (3/10 + (maxMatchCount prompt : ℚ) * (15/100)))) := by
  constructor
  · intro h0
    have hfil : (categoryScores prompt).filter (fun ck => 0 < ck.2) = [] := by
      rw [List.filter_eq_nil_iff]
      intro a ha
      have hle := mem_le_maxCountOf (categoryScores prompt) a ha
      rw [show maxCountOf (categoryScores prompt) = maxMatchCount prompt from rfl, h0] at hle
      simp
      omega
    simp only [CategoryRouter.detect_with_keywords, hfil, pickBest]
  · intro cat hpos hfind
    cases hpb : pickBest ((categoryScores prompt).filter (fun ck => 0 < ck.2)) with
    | none =>
      exfalso
      have hfil := pickBest_eq_none _ hpb
      have hall : ∀ y ∈ categoryScores prompt, y.2 ≤ 0 := by
        intro y hy
        by_contra hne
        have hyf : y ∈ (categoryScores prompt).filter (fun ck => 0 < ck.2) :=
          List.mem_filter.mpr ⟨hy, by simpa using Nat.pos_of_ne_zero (by omega)⟩
        rw [hfil] at hyf
        exact (List.not_mem_nil y) hyf
      have h0 : maxMatchCount prompt = 0 :=
        Nat.le_zero.mp (maxCountOf_le (categoryScores prompt) 0 hall)
      omega
    | some x =>
      have hxf := List.mem_filter.mp (pickBest_mem _ _ hpb)
      have hxin : x ∈ categoryScores prompt := hxf.1
      have hxpos : 0 < x.2 := by simpa using hxf.2
      have hxmax := pickBest_isMax _ _ hpb
      have hall_le : ∀ y ∈ categoryScores prompt, y.2 ≤ x.2 := by
        intro y hy
        by_cases h0 : y.2 = 0
        · omega
        · exact hxmax y (List.mem_filter.mpr ⟨hy, by simpa using Nat.pos_of_ne_zero h0⟩)
      have hx2 : x.2 = maxMatchCount prompt := by
        apply le_antisymm
        · exact mem_le_maxCountOf (categoryScores prompt) x hxin
        · exact maxCountOf_le (categoryScores prompt) x.2 hall_le
      have hfind2 : (categoryScores prompt).find? (fun y => decide (x.2 ≤ y.2)) = some x := by
        rw [← find?_filter_sub (fun y => decide (x.2 ≤ y.2)) (fun ck => 0 < ck.2)
          (fun a ha => by simp at ha ⊢; omega) (categoryScores prompt)]
        exact pickBest_first _ _ hpb
      have hfind3 : (categoryScores prompt).find? (fun y => y.2 == maxMatchCount prompt)
          = some x := by
        rw [← find?_congr_pred (fun y => decide (x.2 ≤ y.2))
          (fun y => y.2 == maxMatchCount prompt) (categoryScores prompt) ?hc]
        exact hfind2
        case hc =>
          intro a ha
          have h1 : a.2 ≤ maxMatchCount prompt := mem_le_maxCountOf (categoryScores prompt) a ha
          by_cases he : a.2 = maxMatchCount prompt
          · simp [he, hx2]
          · have hnle : ¬ (x.2 ≤ a.2) := by omega
            simp [hnle, he]
      rw [hfind3, Option.some.injEq] at hfind
      subst hfind
      simp only [CategoryRouter.detect_with_keywords, hpb]
/-- Witness for claim C6, at the prompt "python": exactly one keyword of the
code category matches, that category is the first attaining the maximal
count, and the returned confidence follows the formula. -/
theorem c6_witness :
    CategoryRouter.detect_with_keywords "python"
      = (.code, min (9/10) (3/10 + (maxMatchCount "python" : ℚ) * (15/100))) :=
  (c6_keyword_fallback "python").2 .code (by decide) (by decide)
end PromptEnhancer
